import Mathlib

/-!
Verification of the Coinbase wallet sensor platform
(homeassistant/components/sensor/coinbasewallet.py).

The module is embedded shallowly: the mutable `CoinbaseClient` object becomes
a record that functions transform; remote I/O (the vendor wallet SDK and the
ad-hoc REST pricing calls) is abstracted by an `Env` of response oracles, and
every remote call actually issued is logged in a `RemoteCall` trace.  A Python
exception that the code does not catch is modelled by `Except.error`; caught
and swallowed errors stay inside `Except.ok`.
-/

namespace Coinbase

/-- A balance record as returned by the wallet SDK: `{amount, currency}`. -/
structure Money where
  amount : String
  currency : String
  deriving Repr, DecidableEq

/-- An account detail record as returned by `client.get_account(id)`. -/
structure Account where
  id : String
  type : String
  resource : String
  primary : Bool
  created_at : String
  updated_at : String
  balance : Money
  native_balance : Money
  deriving Repr, DecidableEq

/-- An account summary from `client.get_accounts()` (only the fields the
platform reads: `id` and `name`). -/
structure AccountSummary where
  id : String
  name : String
  deriving Repr, DecidableEq

/-- The four keys of the `queries` dict inside `coinbasehttp`. -/
inductive Query where
  | buy_price
  | sell_price
  | spot_price
  | exchange_rate
  deriving Repr, DecidableEq

/-- The parsed JSON object found under the `data` key of a 2xx pricing
response; each field is `some` exactly when the corresponding key is
present. -/
structure ApiData where
  amount : Option String
  rates : Option (List (String × String))
  deriving Repr, DecidableEq

/-- Outcome of `urllib.request.urlopen` on one pricing request: either an
`HTTPError` (carrying its display string) or a parsed 2xx body. -/
inductive HttpResp where
  | httpError (e : String)
  | success (d : ApiData)
  deriving Repr, DecidableEq

/-- Python `str(x)` on an optional string argument (`None` prints as
`"None"`), used because `coinbasehttp` is called with `currency=None` for the
exchange-rate query. -/
def pyStr : Option String → String
  | none => "None"
  | some s => s

/-- `base_url` from `coinbasehttp`. -/
def base_url : String := "https://api.coinbase.com/v2/"

/-- The `queries` dict of `coinbasehttp`: the path for each query. -/
def queryPath (query : Query) (currency : Option String)
    (currency_native : String) : String :=
  match query with
  | .buy_price => "prices/" ++ pyStr currency ++ "-" ++ currency_native ++ "/buy"
  | .sell_price => "prices/" ++ pyStr currency ++ "-" ++ currency_native ++ "/sell"
  | .spot_price => "prices/" ++ pyStr currency ++ "-" ++ currency_native ++ "/spot"
  | .exchange_rate => "exchange-rates"

/-- `req_url = base_url + queries.get(query)`. -/
def req_url (query : Query) (currency : Option String)
    (currency_native : String) : String :=
  base_url ++ queryPath query currency currency_native

/-- The error string built in the `except HTTPError` branch of
`coinbasehttp`. -/
def apiErrorMsg (query : Query) (currency : Option String)
    (currency_native : String) (e : String) : String :=
  "Coinbase API error (" ++ req_url query currency currency_native ++ "): " ++ e

/-- The string built when the requested native currency is absent from
`rates`. -/
def notSupportedMsg (currency_native : String) : String :=
  "Currency \"" ++ currency_native ++ "\" not supported by Coinbase"

/-- `CoinbaseClient.coinbasehttp`, given the HTTP outcome `resp` for the one
request it issues.  `Except.error` models an uncaught Python exception (a
`KeyError` on a malformed 2xx body); every handled outcome, including an
`HTTPError`, is returned as an `Except.ok` string. -/
def coinbasehttp (query : Query) (currency : Option String)
    (currency_native : String) (resp : HttpResp) : Except String String :=
  match resp with
  | .httpError e => .ok (apiErrorMsg query currency currency_native e)
  | .success d =>
    match query with
    | .exchange_rate =>
      match d.rates with
      | none => .error "KeyError: rates"
      | some rates =>
        match rates.lookup currency_native with
        | some r => .ok r
        | none => .ok (notSupportedMsg currency_native)
    | _ =>
      match d.amount with
      | none => .error "KeyError: amount"
      | some a => .ok a

/-- The platform configuration (validated `PLATFORM_SCHEMA` fields). -/
structure Config where
  api_key : String
  api_secret : String
  native_balance : Bool
  exclude_wallet : List String
  deriving Repr, DecidableEq

/-- The mutable state of a `CoinbaseClient` instance: the cached snapshot
fields, all `None` at construction, plus the per-instance throttle timestamp
(seconds; `none` before the first executed refresh). -/
structure CoinbaseClient where
  haconf : Config
  account_id : String
  account_type : Option String
  created_at : Option String
  updated_at : Option String
  primary : Option Bool
  resource : Option String
  balance_amount : Option String
  balance_currency : Option String
  native_balance_amount : Option String
  native_balance_currency : Option String
  buy_price : Option String
  sell_price : Option String
  spot_price : Option String
  exch_rate_native_usd : Option String
  last_refresh : Option Nat
  deriving Repr, DecidableEq

/-- `CoinbaseClient.__init__(config, account_id)`: every snapshot field
unset. -/
def CoinbaseClient.init (config : Config) (account_id : String) :
    CoinbaseClient :=
  { haconf := config
    account_id := account_id
    account_type := none
    created_at := none
    updated_at := none
    primary := none
    resource := none
    balance_amount := none
    balance_currency := none
    native_balance_amount := none
    native_balance_currency := none
    buy_price := none
    sell_price := none
    spot_price := none
    exch_rate_native_usd := none
    last_refresh := none }

/-- `CoinbaseClient.balance(native)`. -/
def CoinbaseClient.balance (c : CoinbaseClient) (native : Bool) :
    Option String :=
  if native = true then c.native_balance_amount else c.balance_amount

/-- A remote call issued during a refresh or at setup. -/
inductive RemoteCall where
  | get_accounts (key secret : String)
  | get_account (key secret id : String)
  | httpGet (url : String)
  deriving Repr, DecidableEq

/-- The response oracles standing for the two remote collaborators.
`get_account` returns `Except.error msg` for an `AuthenticationError`;
`http` gives the HTTP outcome of the one GET that `coinbasehttp` issues for
a given query triple.  `now` is the current time in seconds. -/
structure Env where
  now : Nat
  get_accounts : String → String → Except String (List AccountSummary)
  get_account : String → String → String → Except String Account
  http : Query → Option String → String → HttpResp

/-- The block of nine assignments in `CoinbaseClient.update` that copies the
fetched account record into the snapshot. -/
def CoinbaseClient.applyAccount (c : CoinbaseClient) (account : Account) :
    CoinbaseClient :=
  { c with
    created_at := some account.created_at
    primary := some account.primary
    account_type := some account.type
    resource := some account.resource
    balance_amount := some account.balance.amount
    balance_currency := some account.balance.currency
    native_balance_amount := some account.native_balance.amount
    native_balance_currency := some account.native_balance.currency
    updated_at := some account.updated_at }

/-- The body of `CoinbaseClient.update` (everything under the `@Throttle`
decorator): fetch the account, overwrite the snapshot fields, then the
pricing calls.  An `AuthenticationError` from `get_account` is caught and
swallowed (`return False`), leaving the snapshot untouched.  The returned
trace lists the remote calls issued, in order.  An uncaught pricing
exception is reported as `Except.error` without the object state at the
raise; the mutation-faithful semantics is `CoinbaseClient.update_body_run`
below, of which this function is the exception-oblivious projection
(`update_body_agrees`). -/
def CoinbaseClient.update_body (env : Env) (c : CoinbaseClient) :
    Except String (CoinbaseClient × List RemoteCall) := do
  let authCall := RemoteCall.get_account c.haconf.api_key c.haconf.api_secret
    c.account_id
  match env.get_account c.haconf.api_key c.haconf.api_secret c.account_id with
  | .error _e => pure (c, [authCall])
  | .ok account =>
    let c := c.applyAccount account
    let nat := account.native_balance.currency
    let rate ← coinbasehttp .exchange_rate none nat
      (env.http .exchange_rate none nat)
    let c := { c with exch_rate_native_usd := some rate }
    let calls := [authCall, .httpGet (req_url .exchange_rate none nat)]
    if c.account_type = some "wallet" then
      let cur := some account.balance.currency
      let buy ← coinbasehttp .buy_price cur nat (env.http .buy_price cur nat)
      let c := { c with buy_price := some buy }
      let sell ← coinbasehttp .sell_price cur nat (env.http .sell_price cur nat)
      let c := { c with sell_price := some sell }
      let spot ← coinbasehttp .spot_price cur nat (env.http .spot_price cur nat)
      let c := { c with spot_price := some spot }
      pure (c, calls ++ [.httpGet (req_url .buy_price cur nat),
        .httpGet (req_url .sell_price cur nat),
        .httpGet (req_url .spot_price cur nat)])
    else
      pure (c, calls)

/-- Modelled from the spec: the `@Throttle(MIN_TIME_BETWEEN_SCANS)` decorator
from `homeassistant.util` is not part of the sources under verification; per
the spec, if less than 60 seconds have elapsed since the last successful or
attempted refresh the call returns immediately reusing the cached snapshot,
otherwise the body runs and the timestamp is recorded. -/
def CoinbaseClient.update (env : Env) (c : CoinbaseClient) :
    Except String (CoinbaseClient × List RemoteCall) :=
  match c.last_refresh with
  | some t =>
    if env.now < t + 60 then .ok (c, [])
    else do
      let (c2, calls) ← c.update_body env
      pure ({ c2 with last_refresh := some env.now }, calls)
  | none => do
    let (c2, calls) ← c.update_body env
    pure ({ c2 with last_refresh := some env.now }, calls)

/-- Result of one Python-level call to `update`: the final state of the
mutated `self`, the remote calls issued, and the uncaught exception
(`some e`) if one propagated out of the method. -/
structure RunResult where
  state : CoinbaseClient
  calls : List RemoteCall
  exn : Option String
  deriving Repr, DecidableEq

/-- Mutation-faithful semantics of the `update` body (lines 198-236): when
an uncaught pricing exception (a `KeyError` on a malformed 2xx body) is
raised, the assignments already executed stay in place — lines 208-216 have
overwritten the account fields before the exchange-rate call, and each
pricing field assignment lands before the next pricing call — exactly as
Python leaves `self` when the raise happens mid-method.
`CoinbaseClient.update_body` is the exception-oblivious view of this
function (it forgets the state at the raise); `update_body_agrees` proves
the two agree. -/
def CoinbaseClient.update_body_run (env : Env) (c : CoinbaseClient) :
    RunResult :=
  let authCall := RemoteCall.get_account c.haconf.api_key c.haconf.api_secret
    c.account_id
  match env.get_account c.haconf.api_key c.haconf.api_secret c.account_id with
  | .error _e => ⟨c, [authCall], none⟩
  | .ok account =>
    let c := c.applyAccount account
    let nat := account.native_balance.currency
    let calls := [authCall, .httpGet (req_url .exchange_rate none nat)]
    match coinbasehttp .exchange_rate none nat
        (env.http .exchange_rate none nat) with
    | .error e => ⟨c, calls, some e⟩
    | .ok rate =>
      let c := { c with exch_rate_native_usd := some rate }
      if c.account_type = some "wallet" then
        let cur := some account.balance.currency
        let calls := calls ++ [.httpGet (req_url .buy_price cur nat)]
        match coinbasehttp .buy_price cur nat
            (env.http .buy_price cur nat) with
        | .error e => ⟨c, calls, some e⟩
        | .ok buy =>
          let c := { c with buy_price := some buy }
          let calls := calls ++ [.httpGet (req_url .sell_price cur nat)]
          match coinbasehttp .sell_price cur nat
              (env.http .sell_price cur nat) with
          | .error e => ⟨c, calls, some e⟩
          | .ok sell =>
            let c := { c with sell_price := some sell }
            let calls := calls ++ [.httpGet (req_url .spot_price cur nat)]
            match coinbasehttp .spot_price cur nat
                (env.http .spot_price cur nat) with
            | .error e => ⟨c, calls, some e⟩
            | .ok spot => ⟨{ c with spot_price := some spot }, calls, none⟩
      else ⟨c, calls, none⟩

/-- The throttle decorator records its timestamp after the wrapped method
returns; a raise skips that line, so the timestamp is stamped only on an
exception-free run. -/
def stampIfOk (now : Nat) (r : RunResult) : RunResult :=
  match r.exn with
  | none => ⟨{ r.state with last_refresh := some now }, r.calls, none⟩
  | some _ => r

/-- Mutation-faithful `update`: the spec-modelled throttle returns the
cached state untouched; otherwise the body runs with its partial mutations
visible even when it raises.  `CoinbaseClient.update` is the
exception-oblivious view; `update_run_agrees` proves they agree. -/
def CoinbaseClient.update_run (env : Env) (c : CoinbaseClient) : RunResult :=
  match c.last_refresh with
  | some t =>
    if env.now < t + 60 then ⟨c, [], none⟩
    else stampIfOk env.now (c.update_body_run env)
  | none => stampIfOk env.now (c.update_body_run env)

/-- The state of a `CoinbaseSensor` entity. -/
structure CoinbaseSensor where
  _name : String
  account_id : String
  native : Bool
  data : CoinbaseClient
  _unit_of_measurement : Option String
  _state : Option String
  deriving Repr, DecidableEq

/-- `CoinbaseSensor.__init__(config, name, account_id, native)`: builds a
fresh `CoinbaseClient`, performs the immediate synchronous first refresh,
then reads `balance(native)` as the initial state. -/
def CoinbaseSensor.construct (env : Env) (config : Config) (name : String)
    (account_id : String) (native : Bool) : Except String CoinbaseSensor := do
  let data := CoinbaseClient.init config account_id
  let (data, _calls) ← data.update env
  pure { _name := name
         account_id := account_id
         native := native
         data := data
         _unit_of_measurement := none
         _state := data.balance native }

/-- The `name` property. -/
def CoinbaseSensor.name (s : CoinbaseSensor) : String := s._name

/-- The `state` property. -/
def CoinbaseSensor.state (s : CoinbaseSensor) : Option String := s._state

/-- The `unit_of_measurement` property. -/
def CoinbaseSensor.unit_of_measurement (s : CoinbaseSensor) : Option String :=
  if s.native = true then s.data.native_balance_currency
  else s.data.balance_currency

/-- One value in the `state_attributes` dict; the entries hold optional
strings, the optional `primary` bool, and the plain `show_native` bool. -/
inductive AttrVal where
  | ostr (v : Option String)
  | obool (v : Option Bool)
  | bool (v : Bool)
  deriving Repr, DecidableEq

/-- The `state_attributes` property: the base attribute dict, extended with
the pricing attributes exactly when the cached account type is `wallet`. -/
def CoinbaseSensor.state_attributes (s : CoinbaseSensor) :
    List (String × AttrVal) :=
  let attrs : List (String × AttrVal) :=
    [("resource", .ostr s.data.resource),
     ("primary", .obool s.data.primary),
     ("type", .ostr s.data.account_type),
     ("created_at", .ostr s.data.created_at),
     ("updated_at", .ostr s.data.updated_at),
     ("balance_amount", .ostr s.data.balance_amount),
     ("balance_currency", .ostr s.data.balance_currency),
     ("native_balance_amount", .ostr s.data.native_balance_amount),
     ("native_balance_currency", .ostr s.data.native_balance_currency),
     ("show_native", .bool s.native)]
  let attrs_wallet : List (String × AttrVal) :=
    [("buy_price", .ostr s.data.buy_price),
     ("sell_price", .ostr s.data.sell_price),
     ("spot_price", .ostr s.data.spot_price),
     ("exch_rate_native_usd", .ostr s.data.exch_rate_native_usd)]
  if s.data.account_type = some "wallet" then attrs ++ attrs_wallet else attrs

/-- `CoinbaseSensor.update`: the host-driven refresh tick; delegates to the
poller and re-reads `balance`. -/
def CoinbaseSensor.update (env : Env) (s : CoinbaseSensor) :
    Except String CoinbaseSensor := do
  let (data, _calls) ← s.data.update env
  pure { s with data := data, _state := data.balance s.native }

/-- The per-account loop of `setup_platform`: skip accounts whose name is in
the exclusion list, construct a `CoinbaseSensor` for the rest. -/
def buildSensors (env : Env) (config : Config) :
    List AccountSummary → Except String (List CoinbaseSensor)
  | [] => .ok []
  | account :: rest =>
    if account.name ∈ config.exclude_wallet then buildSensors env config rest
    else do
      let s ← CoinbaseSensor.construct env config ("Coinbase " ++ account.name)
        account.id config.native_balance
      let rest2 ← buildSensors env config rest
      pure (s :: rest2)

/-- `setup_platform`: list the accounts; on `AuthenticationError` log and
`return False` (modelled as `.ok none` — setup reported failed, no sensor
constructed or registered); otherwise build the exclusion-filtered sensors
and hand them to `add_devices` (modelled as `.ok (some sensors)`). -/
def setup_platform (env : Env) (config : Config) :
    Except String (Option (List CoinbaseSensor)) :=
  match env.get_accounts config.api_key config.api_secret with
  | .error _e => .ok none
  | .ok accounts => do
    let sensors ← buildSensors env config accounts
    pure (some sensors)

/-- Whether a call to `update` at time `env.now` is suppressed by the
throttle (modelled from the spec: less than 60 seconds since the last
executed refresh). -/
def throttledB (env : Env) (c : CoinbaseClient) : Bool :=
  match c.last_refresh with
  | some t => env.now < t + 60
  | none => false

/-- A snapshot in its pre-first-refresh state: every cached field unset. -/
structure SnapshotEmpty (c : CoinbaseClient) : Prop where
  account_type : c.account_type = none
  created_at : c.created_at = none
  updated_at : c.updated_at = none
  primary : c.primary = none
  resource : c.resource = none
  balance_amount : c.balance_amount = none
  balance_currency : c.balance_currency = none
  native_balance_amount : c.native_balance_amount = none
  native_balance_currency : c.native_balance_currency = none
  buy_price : c.buy_price = none
  sell_price : c.sell_price = none
  spot_price : c.spot_price = none
  exch_rate_native_usd : c.exch_rate_native_usd = none

/-- A snapshot fully populated for account kind `t`: identity, timestamp,
balance and exchange-rate fields set; the buy/sell/spot fields set exactly
when the kind is `wallet`, and unset for every other kind. -/
structure PopulatedFor (t : String) (c : CoinbaseClient) : Prop where
  account_type : c.account_type = some t
  created_at : c.created_at.isSome = true
  updated_at : c.updated_at.isSome = true
  primary : c.primary.isSome = true
  resource : c.resource.isSome = true
  balance_amount : c.balance_amount.isSome = true
  balance_currency : c.balance_currency.isSome = true
  native_balance_amount : c.native_balance_amount.isSome = true
  native_balance_currency : c.native_balance_currency.isSome = true
  exch_rate_native_usd : c.exch_rate_native_usd.isSome = true
  wallet_prices : t = "wallet" →
    c.buy_price.isSome = true ∧ c.sell_price.isSome = true ∧
    c.spot_price.isSome = true
  fiat_prices : t ≠ "wallet" →
    c.buy_price = none ∧ c.sell_price = none ∧ c.spot_price = none

/-- The snapshot invariant: fully empty, or fully populated for some kind. -/
def SnapshotInv (c : CoinbaseClient) : Prop :=
  SnapshotEmpty c ∨ ∃ t, PopulatedFor t c

/-- A sequence of host-driven refresh ticks on one poller, each under its
own environment (time and remote responses), on the mutation-faithful
semantics: the host catches and logs a raised update exception and keeps
the entity, so the partially mutated state carries into the next tick.
Returns the final state and the exceptions raised along the way. -/
def runTicks (envs : List Env) (c : CoinbaseClient) :
    CoinbaseClient × List String :=
  match envs with
  | [] => (c, [])
  | e :: rest =>
    ((runTicks rest (c.update_run e).state).1,
     (c.update_run e).exn.toList ++ (runTicks rest (c.update_run e).state).2)

/-! Concrete fixtures used by witnesses and counterexamples. -/

/-- A concrete configuration. -/
def cfg0 : Config :=
  { api_key := "k", api_secret := "s", native_balance := false,
    exclude_wallet := [] }

/-- A concrete wallet-kind account record. -/
def acctW : Account :=
  { id := "w1", type := "wallet", resource := "account", primary := true,
    created_at := "2017-01-01", updated_at := "2017-01-02",
    balance := { amount := "1.5", currency := "BTC" },
    native_balance := { amount := "6000", currency := "USD" } }

/-- A concrete fiat-kind account record. -/
def acctF : Account :=
  { id := "f1", type := "fiat", resource := "account", primary := false,
    created_at := "2017-01-01", updated_at := "2017-01-02",
    balance := { amount := "10", currency := "USD" },
    native_balance := { amount := "10", currency := "USD" } }

/-- A fiat-kind account whose native currency is the unsupported `XYZ`. -/
def acctX : Account :=
  { acctF with native_balance := { amount := "10", currency := "XYZ" } }

/-- Pricing responses where every call succeeds with a well-formed body. -/
def httpOK : Query → Option String → String → HttpResp := fun q _ _ =>
  match q with
  | .exchange_rate => .success { amount := none, rates := some [("USD", "1.0")] }
  | .buy_price => .success { amount := some "6100", rates := none }
  | .sell_price => .success { amount := some "5900", rates := none }
  | .spot_price => .success { amount := some "6000", rates := none }

/-- An environment where the wallet SDK returns the wallet account and all
pricing calls succeed. -/
def envW : Env :=
  { now := 1000,
    get_accounts := fun _ _ => .ok [{ id := "w1", name := "BTC Wallet" }],
    get_account := fun _ _ _ => .ok acctW,
    http := httpOK }

/-- An environment where the wallet SDK returns the fiat account. -/
def envF : Env := { envW with get_account := fun _ _ _ => .ok acctF }

/-- An environment returning the fiat account with native currency `XYZ`,
absent from the exchange-rates table. -/
def envX : Env := { envW with get_account := fun _ _ _ => .ok acctX }

/-- An environment where every wallet-SDK call raises
`AuthenticationError`. -/
def envAuth : Env :=
  { envW with
    get_accounts := fun _ _ => .error "invalid api key",
    get_account := fun _ _ _ => .error "invalid api key" }

/-- Like `envW`, but the spot-price request fails with an `HTTPError`. -/
def envSpotFail : Env :=
  { envW with
    http := fun q cur nat =>
      match q with
      | .spot_price => .httpError "HTTP Error 404: Not Found"
      | _ => httpOK q cur nat }

/-- The sensor value produced when the synchronous first refresh in the
constructor hits an `AuthenticationError`: only the throttle timestamp of
the fresh client has been touched. -/
def authFailSensor (env : Env) (config : Config) (name account_id : String)
    (native : Bool) : CoinbaseSensor :=
  { _name := name
    account_id := account_id
    native := native
    data := { CoinbaseClient.init config account_id with
              last_refresh := some env.now }
    _unit_of_measurement := none
    _state := none }

/-- Extracts the successful result of an `update` run (fixture helper). -/
def updResult (env : Env) (c : CoinbaseClient) :
    CoinbaseClient × List RemoteCall :=
  (c.update env).toOption.getD (c, [])

/-- Extracts the successful result of `buildSensors` (fixture helper). -/
def buildResult (env : Env) (config : Config) (accounts : List AccountSummary) :
    List CoinbaseSensor :=
  (buildSensors env config accounts).toOption.getD []

/-- Like `envF`, but the exchange-rates request returns a 2xx body whose
`data` object lacks the `rates` key, so the lookup raises `KeyError`. -/
def envBadRates : Env :=
  { envF with
    http := fun q cur nat =>
      match q with
      | .exchange_rate => .success { amount := none, rates := none }
      | _ => httpOK q cur nat }

/-- `envF` one hour later, so a second tick is past the throttle window. -/
def envF2 : Env := { envF with now := 2000 }

/-- A concretely constructed sensor over the all-success wallet fixture. -/
def sensorW : CoinbaseSensor :=
  (CoinbaseSensor.construct envW cfg0 "Coinbase BTC Wallet" "w1" false
    ).toOption.getD (authFailSensor envW cfg0 "Coinbase BTC Wallet" "w1" false)

/-- Extracts the successful result of a sensor refresh tick (fixture
helper). -/
def tickResult (env : Env) (s : CoinbaseSensor) : CoinbaseSensor :=
  (s.update env).toOption.getD s

/-- A client that has just refreshed at time 990 (fixture for throttling). -/
def cThrottled : CoinbaseClient :=
  { CoinbaseClient.init cfg0 "w1" with last_refresh := some 990 }

/-- Configuration with the account name `Vault` excluded. -/
def cfgEx : Config := { cfg0 with exclude_wallet := ["Vault"] }

/-- The bootstrap account listing `[Vault, Checking]`. -/
def accts7 : List AccountSummary :=
  [{ id := "a1", name := "Vault" }, { id := "a2", name := "Checking" }]

/-- A bootstrap environment listing `accts7`, with every account fetch and
pricing call succeeding. -/
def env7 : Env := { envW with get_accounts := fun _ _ => .ok accts7 }

/-! Helper lemmas about `update`. -/

/-- When the throttle guard is open, `update` runs the body and then stamps
the throttle timestamp. -/
lemma update_not_throttled (env : Env) (c : CoinbaseClient)
    (hth : throttledB env c = false) :
    c.update env = (c.update_body env).map
      (fun p => ({ p.1 with last_refresh := some env.now }, p.2)) := by
  unfold CoinbaseClient.update
  unfold throttledB at hth
  cases hl : c.last_refresh with
  | none =>
    cases hb : c.update_body env <;> simp [Except.map, hb]
  | some t =>
    rw [hl] at hth
    simp only [decide_eq_false_iff_not] at hth
    cases hb : c.update_body env <;> simp [Except.map, hb, hth]

/-- On an `AuthenticationError` from `get_account`, the body swallows the
error and leaves every field untouched. -/
lemma update_body_auth_error (env : Env) (c : CoinbaseClient) (e : String)
    (hauth : env.get_account c.haconf.api_key c.haconf.api_secret
      c.account_id = .error e) :
    c.update_body env =
      .ok (c, [RemoteCall.get_account c.haconf.api_key c.haconf.api_secret
        c.account_id]) := by
  unfold CoinbaseClient.update_body
  rw [hauth]
  rfl

/-- On a successful fetch of a wallet-kind account with all four pricing
lookups returning a string, the body overwrites every snapshot field and
issues exactly five remote calls. -/
lemma update_body_wallet (env : Env) (c : CoinbaseClient) (a : Account)
    (r b sv sp : String)
    (hacct : env.get_account c.haconf.api_key c.haconf.api_secret
      c.account_id = .ok a)
    (hw : a.type = "wallet")
    (hrate : coinbasehttp .exchange_rate none a.native_balance.currency
      (env.http .exchange_rate none a.native_balance.currency) = .ok r)
    (hbuy : coinbasehttp .buy_price (some a.balance.currency)
      a.native_balance.currency
      (env.http .buy_price (some a.balance.currency)
        a.native_balance.currency) = .ok b)
    (hsell : coinbasehttp .sell_price (some a.balance.currency)
      a.native_balance.currency
      (env.http .sell_price (some a.balance.currency)
        a.native_balance.currency) = .ok sv)
    (hspot : coinbasehttp .spot_price (some a.balance.currency)
      a.native_balance.currency
      (env.http .spot_price (some a.balance.currency)
        a.native_balance.currency) = .ok sp) :
    c.update_body env =
      .ok ({ c.applyAccount a with
              exch_rate_native_usd := some r
              buy_price := some b
              sell_price := some sv
              spot_price := some sp },
        [RemoteCall.get_account c.haconf.api_key c.haconf.api_secret
          c.account_id,
         .httpGet (req_url .exchange_rate none a.native_balance.currency),
         .httpGet (req_url .buy_price (some a.balance.currency)
           a.native_balance.currency),
         .httpGet (req_url .sell_price (some a.balance.currency)
           a.native_balance.currency),
         .httpGet (req_url .spot_price (some a.balance.currency)
           a.native_balance.currency)]) := by
  unfold CoinbaseClient.update_body
  rw [hacct]
  simp only [CoinbaseClient.applyAccount, hw, hrate, hbuy, hsell, hspot,
    bind, Except.bind]
  simp only [reduceIte]
  rfl

/-- On a successful fetch of a non-wallet account, the body overwrites the
account fields and the exchange rate only, leaving buy/sell/spot untouched,
and issues exactly two remote calls. -/
lemma update_body_nonwallet (env : Env) (c : CoinbaseClient) (a : Account)
    (r : String)
    (hacct : env.get_account c.haconf.api_key c.haconf.api_secret
      c.account_id = .ok a)
    (hnw : a.type ≠ "wallet")
    (hrate : coinbasehttp .exchange_rate none a.native_balance.currency
      (env.http .exchange_rate none a.native_balance.currency) = .ok r) :
    c.update_body env =
      .ok ({ c.applyAccount a with exch_rate_native_usd := some r },
        [RemoteCall.get_account c.haconf.api_key c.haconf.api_secret
          c.account_id,
         .httpGet (req_url .exchange_rate none a.native_balance.currency)]) := by
  unfold CoinbaseClient.update_body
  rw [hacct]
  simp only [CoinbaseClient.applyAccount, hrate, bind, Except.bind]
  rw [if_neg (by simp [hnw])]
  rfl

/-- Claim C1: for a poller whose last refresh happened less than 60 seconds
ago, `update` returns immediately with the entire client record unchanged
(every snapshot field as it was) and an empty remote-call trace (no wallet
or pricing call issued). -/
theorem C1_throttled_refresh_noop (env : Env) (c : CoinbaseClient) (t : Nat)
    (hl : c.last_refresh = some t) (ht : env.now < t + 60) :
    c.update env = .ok (c, []) := by
  unfold CoinbaseClient.update
  rw [hl]
  simp [ht]

/-- Witness for C1: a poller last refreshed at time 990, polled again at
time 1000. -/
theorem C1_throttled_refresh_noop_witness :
    cThrottled.last_refresh = some 990 ∧ envW.now < 990 + 60 ∧
    cThrottled.update envW = .ok (cThrottled, []) :=
  ⟨rfl, by decide,
    C1_throttled_refresh_noop envW cThrottled 990 rfl (by decide)⟩

/-- Claim C2: when the wallet-SDK call inside a non-throttled `update` fails
with an `AuthenticationError`, `update` returns without an exception and
every snapshot field keeps exactly its prior value (only the throttle
timestamp advances); the only remote call issued is the failed account
fetch. -/
theorem C2_auth_error_keeps_stale_snapshot (env : Env) (c : CoinbaseClient)
    (e : String) (hth : throttledB env c = false)
    (hauth : env.get_account c.haconf.api_key c.haconf.api_secret
      c.account_id = .error e) :
    c.update env =
      .ok ({ c with last_refresh := some env.now },
        [RemoteCall.get_account c.haconf.api_key c.haconf.api_secret
          c.account_id]) := by
  rw [update_not_throttled env c hth, update_body_auth_error env c e hauth]
  rfl

/-- Witness for C2: a fresh poller refreshed against an environment whose
wallet SDK rejects the credentials. -/
theorem C2_auth_error_keeps_stale_snapshot_witness :
    throttledB envAuth (CoinbaseClient.init cfg0 "w1") = false ∧
    envAuth.get_account cfg0.api_key cfg0.api_secret "w1" =
      .error "invalid api key" ∧
    (CoinbaseClient.init cfg0 "w1").update envAuth =
      .ok ({ CoinbaseClient.init cfg0 "w1" with
              last_refresh := some envAuth.now },
        [RemoteCall.get_account cfg0.api_key cfg0.api_secret "w1"]) :=
  ⟨rfl, rfl,
    C2_auth_error_keeps_stale_snapshot envAuth (CoinbaseClient.init cfg0 "w1")
      "invalid api key" rfl rfl⟩

/-- Claim C8: when the bootstrap account-listing call raises
`AuthenticationError`, `setup_platform` reports failure (`return False`,
modelled `.ok none`) without constructing or registering any sensor. -/
theorem C8_setup_auth_failure_aborts (env : Env) (config : Config)
    (e : String)
    (hfail : env.get_accounts config.api_key config.api_secret = .error e) :
    setup_platform env config = .ok none := by
  unfold setup_platform
  rw [hfail]

/-- Witness for C8: setup against the credential-rejecting environment. -/
theorem C8_setup_auth_failure_aborts_witness :
    envAuth.get_accounts cfg0.api_key cfg0.api_secret =
      .error "invalid api key" ∧
    setup_platform envAuth cfg0 = .ok none :=
  ⟨rfl, C8_setup_auth_failure_aborts envAuth cfg0 "invalid api key" rfl⟩

/-- Claim C9: `balance` is a pure read returning the native-balance amount
for `true` and the base-balance amount for `false`, and after a host-driven
refresh tick the sensor state equals `balance(native)` over the refreshed
snapshot. -/
theorem C9_balance_reads_and_state (c : CoinbaseClient) (env : Env)
    (s s2 : CoinbaseSensor) (hup : s.update env = .ok s2) :
    c.balance true = c.native_balance_amount ∧
    c.balance false = c.balance_amount ∧
    s2.state = s2.data.balance s2.native := by
  refine ⟨rfl, rfl, ?_⟩
  unfold CoinbaseSensor.update at hup
  cases hu : s.data.update env with
  | error e2 =>
    rw [hu] at hup
    exact absurd hup (by simp [bind, Except.bind])
  | ok p =>
    rw [hu] at hup
    simp only [bind, Except.bind, pure, Except.pure, Except.ok.injEq] at hup
    rw [← hup]
    rfl

/-- Witness for C9: one refresh tick of the concretely constructed wallet
sensor. -/
theorem C9_balance_reads_and_state_witness :
    sensorW.update envW = .ok (tickResult envW sensorW) ∧
    ((CoinbaseClient.init cfg0 "w1").balance true =
      (CoinbaseClient.init cfg0 "w1").native_balance_amount ∧
    (CoinbaseClient.init cfg0 "w1").balance false =
      (CoinbaseClient.init cfg0 "w1").balance_amount ∧
    (tickResult envW sensorW).state =
      (tickResult envW sensorW).data.balance (tickResult envW sensorW).native) :=
  ⟨rfl, C9_balance_reads_and_state (CoinbaseClient.init cfg0 "w1") envW
    sensorW (tickResult envW sensorW) rfl⟩

/-- Claim C10: if the synchronous first refresh inside the sensor
constructor hits an `AuthenticationError`, construction completes without
raising, yielding a sensor with state `None`, unit of measurement `None`,
and every snapshot-derived attribute `None` (only the configured
`show_native` flag is non-`None`). -/
theorem C10_construct_survives_auth_failure (env : Env) (config : Config)
    (name account_id : String) (native : Bool) (e : String)
    (hauth : env.get_account config.api_key config.api_secret account_id =
      .error e) :
    CoinbaseSensor.construct env config name account_id native =
      .ok (authFailSensor env config name account_id native) ∧
    (authFailSensor env config name account_id native).state = none ∧
    (authFailSensor env config name account_id native).unit_of_measurement =
      none ∧
    (authFailSensor env config name account_id native).state_attributes =
      [("resource", AttrVal.ostr none), ("primary", AttrVal.obool none),
       ("type", AttrVal.ostr none), ("created_at", AttrVal.ostr none),
       ("updated_at", AttrVal.ostr none),
       ("balance_amount", AttrVal.ostr none),
       ("balance_currency", AttrVal.ostr none),
       ("native_balance_amount", AttrVal.ostr none),
       ("native_balance_currency", AttrVal.ostr none),
       ("show_native", AttrVal.bool native)] := by
  refine ⟨?_, rfl, ?_, ?_⟩
  · have h1 : (CoinbaseClient.init config account_id).update env =
        .ok ({ CoinbaseClient.init config account_id with
                last_refresh := some env.now },
          [RemoteCall.get_account config.api_key config.api_secret
            account_id]) := by
      rw [update_not_throttled env (CoinbaseClient.init config account_id) rfl,
        update_body_auth_error env (CoinbaseClient.init config account_id) e
          hauth]
      rfl
    simp only [CoinbaseSensor.construct, h1, bind, Except.bind]
    cases native <;> rfl
  · cases native <;> rfl
  · rfl

/-- Witness for C10: constructing a sensor against the credential-rejecting
environment. -/
theorem C10_construct_survives_auth_failure_witness :
    envAuth.get_account cfg0.api_key cfg0.api_secret "w1" =
      .error "invalid api key" ∧
    (CoinbaseSensor.construct envAuth cfg0 "Coinbase BTC Wallet" "w1" false =
      .ok (authFailSensor envAuth cfg0 "Coinbase BTC Wallet" "w1" false) ∧
    (authFailSensor envAuth cfg0 "Coinbase BTC Wallet" "w1" false).state =
      none ∧
    (authFailSensor envAuth cfg0 "Coinbase BTC Wallet" "w1" false
      ).unit_of_measurement = none ∧
    (authFailSensor envAuth cfg0 "Coinbase BTC Wallet" "w1" false
      ).state_attributes =
      [("resource", AttrVal.ostr none), ("primary", AttrVal.obool none),
       ("type", AttrVal.ostr none), ("created_at", AttrVal.ostr none),
       ("updated_at", AttrVal.ostr none),
       ("balance_amount", AttrVal.ostr none),
       ("balance_currency", AttrVal.ostr none),
       ("native_balance_amount", AttrVal.ostr none),
       ("native_balance_currency", AttrVal.ostr none),
       ("show_native", AttrVal.bool false)]) :=
  ⟨rfl, C10_construct_survives_auth_failure envAuth cfg0 "Coinbase BTC Wallet"
    "w1" false "invalid api key" rfl⟩

/-- Claim C3: for a wallet-kind account, when the spot-price request fails
with a non-2xx `HTTPError` while the other pricing calls succeed, `update`
completes without a thrown fault; the spot field alone receives the
generated error string (`apiErrorMsg`, which embeds the request URL), and
the other pricing fields hold their fetched values. -/
theorem C3_spot_http_error_isolated (env : Env) (c : CoinbaseClient)
    (a : Account) (r b sv e : String)
    (hth : throttledB env c = false)
    (hacct : env.get_account c.haconf.api_key c.haconf.api_secret
      c.account_id = .ok a)
    (hw : a.type = "wallet")
    (hrate : coinbasehttp .exchange_rate none a.native_balance.currency
      (env.http .exchange_rate none a.native_balance.currency) = .ok r)
    (hbuy : coinbasehttp .buy_price (some a.balance.currency)
      a.native_balance.currency
      (env.http .buy_price (some a.balance.currency)
        a.native_balance.currency) = .ok b)
    (hsell : coinbasehttp .sell_price (some a.balance.currency)
      a.native_balance.currency
      (env.http .sell_price (some a.balance.currency)
        a.native_balance.currency) = .ok sv)
    (hspotHTTP : env.http .spot_price (some a.balance.currency)
      a.native_balance.currency = .httpError e) :
    c.update env =
      .ok ({ c.applyAccount a with
              exch_rate_native_usd := some r
              buy_price := some b
              sell_price := some sv
              spot_price := some (apiErrorMsg .spot_price
                (some a.balance.currency) a.native_balance.currency e)
              last_refresh := some env.now },
        [RemoteCall.get_account c.haconf.api_key c.haconf.api_secret
          c.account_id,
         .httpGet (req_url .exchange_rate none a.native_balance.currency),
         .httpGet (req_url .buy_price (some a.balance.currency)
           a.native_balance.currency),
         .httpGet (req_url .sell_price (some a.balance.currency)
           a.native_balance.currency),
         .httpGet (req_url .spot_price (some a.balance.currency)
           a.native_balance.currency)]) := by
  have hspot : coinbasehttp .spot_price (some a.balance.currency)
      a.native_balance.currency
      (env.http .spot_price (some a.balance.currency)
        a.native_balance.currency) =
      .ok (apiErrorMsg .spot_price (some a.balance.currency)
        a.native_balance.currency e) := by
    rw [hspotHTTP]
    rfl
  rw [update_not_throttled env c hth,
    update_body_wallet env c a r b sv _ hacct hw hrate hbuy hsell hspot]
  rfl

/-- Witness for C3: the wallet fixture where only the spot request 404s. -/
theorem C3_spot_http_error_isolated_witness :
    throttledB envSpotFail (CoinbaseClient.init cfg0 "w1") = false ∧
    envSpotFail.get_account cfg0.api_key cfg0.api_secret "w1" = .ok acctW ∧
    acctW.type = "wallet" ∧
    coinbasehttp .exchange_rate none acctW.native_balance.currency
      (envSpotFail.http .exchange_rate none acctW.native_balance.currency) =
      .ok "1.0" ∧
    coinbasehttp .buy_price (some acctW.balance.currency)
      acctW.native_balance.currency
      (envSpotFail.http .buy_price (some acctW.balance.currency)
        acctW.native_balance.currency) = .ok "6100" ∧
    coinbasehttp .sell_price (some acctW.balance.currency)
      acctW.native_balance.currency
      (envSpotFail.http .sell_price (some acctW.balance.currency)
        acctW.native_balance.currency) = .ok "5900" ∧
    envSpotFail.http .spot_price (some acctW.balance.currency)
      acctW.native_balance.currency =
      .httpError "HTTP Error 404: Not Found" ∧
    (CoinbaseClient.init cfg0 "w1").update envSpotFail =
      .ok ({ (CoinbaseClient.init cfg0 "w1").applyAccount acctW with
              exch_rate_native_usd := some "1.0"
              buy_price := some "6100"
              sell_price := some "5900"
              spot_price := some (apiErrorMsg .spot_price
                (some acctW.balance.currency) acctW.native_balance.currency
                "HTTP Error 404: Not Found")
              last_refresh := some envSpotFail.now },
        [RemoteCall.get_account cfg0.api_key cfg0.api_secret "w1",
         .httpGet (req_url .exchange_rate none
           acctW.native_balance.currency),
         .httpGet (req_url .buy_price (some acctW.balance.currency)
           acctW.native_balance.currency),
         .httpGet (req_url .sell_price (some acctW.balance.currency)
           acctW.native_balance.currency),
         .httpGet (req_url .spot_price (some acctW.balance.currency)
           acctW.native_balance.currency)]) :=
  ⟨rfl, rfl, rfl, rfl, rfl, rfl, rfl,
    C3_spot_http_error_isolated envSpotFail (CoinbaseClient.init cfg0 "w1")
      acctW "1.0" "6100" "5900" "HTTP Error 404: Not Found"
      rfl rfl rfl rfl rfl rfl rfl⟩

/-- A successful non-throttled `update` decomposes into a successful body
run followed by the throttle-timestamp stamp. -/
lemma update_ok_body (env : Env) (c c2 : CoinbaseClient)
    (calls : List RemoteCall) (hth : throttledB env c = false)
    (hup : c.update env = .ok (c2, calls)) :
    ∃ c3, c.update_body env = .ok (c3, calls) ∧
      c2 = { c3 with last_refresh := some env.now } := by
  rw [update_not_throttled env c hth] at hup
  cases hb : c.update_body env with
  | error e2 =>
    rw [hb] at hup
    exact absurd hup (by simp [Except.map])
  | ok p =>
    rw [hb] at hup
    simp only [Except.map, Except.ok.injEq, Prod.mk.injEq] at hup
    refine ⟨p.1, ?_, hup.1.symm⟩
    rw [← hup.2]

/-- Whatever else happens in a successful body run, the exchange-rate field
ends up holding the (ok) result of the exchange-rates lookup: the later
buy/sell/spot assignments never touch it. -/
lemma exch_of_update_body_ok (env : Env) (c : CoinbaseClient) (a : Account)
    (s : String) (c3 : CoinbaseClient) (calls : List RemoteCall)
    (hacct : env.get_account c.haconf.api_key c.haconf.api_secret
      c.account_id = .ok a)
    (hrate : coinbasehttp .exchange_rate none a.native_balance.currency
      (env.http .exchange_rate none a.native_balance.currency) = .ok s)
    (hbody : c.update_body env = .ok (c3, calls)) :
    c3.exch_rate_native_usd = some s := by
  unfold CoinbaseClient.update_body at hbody
  rw [hacct] at hbody
  simp only [CoinbaseClient.applyAccount, hrate, bind, Except.bind] at hbody
  by_cases hw : a.type = "wallet"
  · simp only [hw] at hbody
    rw [if_pos trivial] at hbody
    cases hb : coinbasehttp .buy_price (some a.balance.currency)
        a.native_balance.currency
        (env.http .buy_price (some a.balance.currency)
          a.native_balance.currency) with
    | error e2 => rw [hb] at hbody; exact absurd hbody (by simp)
    | ok b =>
      rw [hb] at hbody
      cases hs : coinbasehttp .sell_price (some a.balance.currency)
          a.native_balance.currency
          (env.http .sell_price (some a.balance.currency)
            a.native_balance.currency) with
      | error e2 => rw [hs] at hbody; exact absurd hbody (by simp)
      | ok sv =>
        rw [hs] at hbody
        cases hp : coinbasehttp .spot_price (some a.balance.currency)
            a.native_balance.currency
            (env.http .spot_price (some a.balance.currency)
              a.native_balance.currency) with
        | error e2 => rw [hp] at hbody; exact absurd hbody (by simp)
        | ok sp =>
          rw [hp] at hbody
          simp only [pure, Except.pure, Except.ok.injEq,
            Prod.mk.injEq] at hbody
          rw [← hbody.1]
  · rw [if_neg (by simp [hw])] at hbody
    simp only [pure, Except.pure, Except.ok.injEq, Prod.mk.injEq] at hbody
    rw [← hbody.1]

/-- Claim C5: a non-throttled successful refresh always issues the
exchange-rates call (any account kind) and issues the three buy/sell/spot
calls exactly when the account kind is `wallet`; when the calls succeed the
pricing fields hold exactly the returned strings. -/
theorem C5_pricing_calls_and_fields (env : Env) (c : CoinbaseClient)
    (a : Account) (r b sv sp : String) (c2 : CoinbaseClient)
    (calls : List RemoteCall)
    (hth : throttledB env c = false)
    (hacct : env.get_account c.haconf.api_key c.haconf.api_secret
      c.account_id = .ok a)
    (hrate : coinbasehttp .exchange_rate none a.native_balance.currency
      (env.http .exchange_rate none a.native_balance.currency) = .ok r)
    (hbuy : coinbasehttp .buy_price (some a.balance.currency)
      a.native_balance.currency
      (env.http .buy_price (some a.balance.currency)
        a.native_balance.currency) = .ok b)
    (hsell : coinbasehttp .sell_price (some a.balance.currency)
      a.native_balance.currency
      (env.http .sell_price (some a.balance.currency)
        a.native_balance.currency) = .ok sv)
    (hspot : coinbasehttp .spot_price (some a.balance.currency)
      a.native_balance.currency
      (env.http .spot_price (some a.balance.currency)
        a.native_balance.currency) = .ok sp)
    (hup : c.update env = .ok (c2, calls)) :
    calls =
      [RemoteCall.get_account c.haconf.api_key c.haconf.api_secret
        c.account_id,
       .httpGet (req_url .exchange_rate none a.native_balance.currency)] ++
      (if a.type = "wallet" then
        [RemoteCall.httpGet (req_url .buy_price (some a.balance.currency)
           a.native_balance.currency),
         .httpGet (req_url .sell_price (some a.balance.currency)
           a.native_balance.currency),
         .httpGet (req_url .spot_price (some a.balance.currency)
           a.native_balance.currency)]
       else []) ∧
    c2.exch_rate_native_usd = some r ∧
    (a.type = "wallet" →
      c2.buy_price = some b ∧ c2.sell_price = some sv ∧
      c2.spot_price = some sp) := by
  by_cases hw : a.type = "wallet"
  · rw [update_not_throttled env c hth,
      update_body_wallet env c a r b sv sp hacct hw hrate hbuy hsell
        hspot] at hup
    simp only [Except.map, Except.ok.injEq, Prod.mk.injEq] at hup
    obtain ⟨h1, h2⟩ := hup
    subst h1
    subst h2
    exact ⟨by simp [hw], rfl, fun _ => ⟨rfl, rfl, rfl⟩⟩
  · rw [update_not_throttled env c hth,
      update_body_nonwallet env c a r hacct hw hrate] at hup
    simp only [Except.map, Except.ok.injEq, Prod.mk.injEq] at hup
    obtain ⟨h1, h2⟩ := hup
    subst h1
    subst h2
    exact ⟨by simp [hw], rfl, fun hcontra => absurd hcontra hw⟩

/-- Witness for C5: the all-success wallet fixture; all four pricing fields
take the mocked numeric strings and five remote calls are issued. -/
theorem C5_pricing_calls_and_fields_witness :
    throttledB envW (CoinbaseClient.init cfg0 "w1") = false ∧
    envW.get_account cfg0.api_key cfg0.api_secret "w1" = .ok acctW ∧
    coinbasehttp .exchange_rate none acctW.native_balance.currency
      (envW.http .exchange_rate none acctW.native_balance.currency) =
      .ok "1.0" ∧
    coinbasehttp .buy_price (some acctW.balance.currency)
      acctW.native_balance.currency
      (envW.http .buy_price (some acctW.balance.currency)
        acctW.native_balance.currency) = .ok "6100" ∧
    coinbasehttp .sell_price (some acctW.balance.currency)
      acctW.native_balance.currency
      (envW.http .sell_price (some acctW.balance.currency)
        acctW.native_balance.currency) = .ok "5900" ∧
    coinbasehttp .spot_price (some acctW.balance.currency)
      acctW.native_balance.currency
      (envW.http .spot_price (some acctW.balance.currency)
        acctW.native_balance.currency) = .ok "6000" ∧
    (CoinbaseClient.init cfg0 "w1").update envW =
      .ok ((updResult envW (CoinbaseClient.init cfg0 "w1")).1,
        (updResult envW (CoinbaseClient.init cfg0 "w1")).2) ∧
    ((updResult envW (CoinbaseClient.init cfg0 "w1")).2 =
      [RemoteCall.get_account cfg0.api_key cfg0.api_secret "w1",
       .httpGet (req_url .exchange_rate none
         acctW.native_balance.currency)] ++
      (if acctW.type = "wallet" then
        [RemoteCall.httpGet (req_url .buy_price (some acctW.balance.currency)
           acctW.native_balance.currency),
         .httpGet (req_url .sell_price (some acctW.balance.currency)
           acctW.native_balance.currency),
         .httpGet (req_url .spot_price (some acctW.balance.currency)
           acctW.native_balance.currency)]
       else []) ∧
    (updResult envW (CoinbaseClient.init cfg0 "w1")).1.exch_rate_native_usd =
      some "1.0" ∧
    (acctW.type = "wallet" →
      (updResult envW (CoinbaseClient.init cfg0 "w1")).1.buy_price =
        some "6100" ∧
      (updResult envW (CoinbaseClient.init cfg0 "w1")).1.sell_price =
        some "5900" ∧
      (updResult envW (CoinbaseClient.init cfg0 "w1")).1.spot_price =
        some "6000")) :=
  ⟨rfl, rfl, rfl, rfl, rfl, rfl, rfl,
    C5_pricing_calls_and_fields envW (CoinbaseClient.init cfg0 "w1") acctW
      "1.0" "6100" "5900" "6000"
      (updResult envW (CoinbaseClient.init cfg0 "w1")).1
      (updResult envW (CoinbaseClient.init cfg0 "w1")).2
      rfl rfl rfl rfl rfl rfl rfl⟩

/-- Claim C6: when the exchange-rates response body lacks the requested
native currency code, the lookup yields the exact string
`Currency "<code>" not supported by Coinbase` as an ordinary value (an `ok`
result, not a raised error), and a successful refresh stores that string in
the exchange-rate field. -/
theorem C6_missing_native_currency_message (env : Env) (c : CoinbaseClient)
    (a : Account) (am : Option String) (rates : List (String × String))
    (c2 : CoinbaseClient) (calls : List RemoteCall)
    (hth : throttledB env c = false)
    (hacct : env.get_account c.haconf.api_key c.haconf.api_secret
      c.account_id = .ok a)
    (hresp : env.http .exchange_rate none a.native_balance.currency =
      .success { amount := am, rates := some rates })
    (hmiss : rates.lookup a.native_balance.currency = none)
    (hup : c.update env = .ok (c2, calls)) :
    coinbasehttp .exchange_rate none a.native_balance.currency
      (env.http .exchange_rate none a.native_balance.currency) =
      .ok (notSupportedMsg a.native_balance.currency) ∧
    c2.exch_rate_native_usd =
      some (notSupportedMsg a.native_balance.currency) := by
  have hrate : coinbasehttp .exchange_rate none a.native_balance.currency
      (env.http .exchange_rate none a.native_balance.currency) =
      .ok (notSupportedMsg a.native_balance.currency) := by
    rw [hresp]
    simp [coinbasehttp, hmiss]
  refine ⟨hrate, ?_⟩
  obtain ⟨c3, hbody, hc2⟩ := update_ok_body env c c2 calls hth hup
  have hx := exch_of_update_body_ok env c a
    (notSupportedMsg a.native_balance.currency) c3 calls hacct hrate hbody
  rw [hc2]
  exact hx

/-- Witness for C6: the fiat account whose native currency `XYZ` is absent
from the mocked exchange-rates table. -/
theorem C6_missing_native_currency_message_witness :
    throttledB envX (CoinbaseClient.init cfg0 "f1") = false ∧
    envX.get_account cfg0.api_key cfg0.api_secret "f1" = .ok acctX ∧
    envX.http .exchange_rate none acctX.native_balance.currency =
      .success { amount := none, rates := some [("USD", "1.0")] } ∧
    ([("USD", "1.0")] : List (String × String)).lookup
      acctX.native_balance.currency = none ∧
    (CoinbaseClient.init cfg0 "f1").update envX =
      .ok ((updResult envX (CoinbaseClient.init cfg0 "f1")).1,
        (updResult envX (CoinbaseClient.init cfg0 "f1")).2) ∧
    (coinbasehttp .exchange_rate none acctX.native_balance.currency
      (envX.http .exchange_rate none acctX.native_balance.currency) =
      .ok (notSupportedMsg acctX.native_balance.currency) ∧
    (updResult envX (CoinbaseClient.init cfg0 "f1")).1.exch_rate_native_usd =
      some (notSupportedMsg acctX.native_balance.currency)) :=
  ⟨rfl, rfl, rfl, rfl, rfl,
    C6_missing_native_currency_message envX (CoinbaseClient.init cfg0 "f1")
      acctX none [("USD", "1.0")]
      (updResult envX (CoinbaseClient.init cfg0 "f1")).1
      (updResult envX (CoinbaseClient.init cfg0 "f1")).2
      rfl rfl rfl rfl rfl⟩

/-- A successfully constructed sensor carries exactly the display name and
account id it was given. -/
lemma construct_name_id (env : Env) (config : Config) (n id : String)
    (nb : Bool) (s : CoinbaseSensor)
    (h : CoinbaseSensor.construct env config n id nb = .ok s) :
    s._name = n ∧ s.account_id = id := by
  simp only [CoinbaseSensor.construct] at h
  cases hu : (CoinbaseClient.init config id).update env with
  | error e =>
    rw [hu] at h
    exact absurd h (by simp [bind, Except.bind])
  | ok p =>
    rw [hu] at h
    simp only [bind, Except.bind, pure, Except.pure, Except.ok.injEq] at h
    rw [← h]
    exact ⟨rfl, rfl⟩

/-- The sensors produced by the bootstrap loop are in one-to-one
correspondence (names and account ids, in order) with the accounts whose
name is not excluded. -/
lemma buildSensors_names (env : Env) (config : Config) :
    ∀ (accounts : List AccountSummary) (sensors : List CoinbaseSensor),
      buildSensors env config accounts = .ok sensors →
      sensors.map (fun s => (s._name, s.account_id)) =
        (accounts.filter
          (fun a => decide ¬(a.name ∈ config.exclude_wallet))).map
          (fun a => ("Coinbase " ++ a.name, a.id)) := by
  intro accounts
  induction accounts with
  | nil =>
    intro sensors h
    unfold buildSensors at h
    simp only [Except.ok.injEq] at h
    rw [← h]
    rfl
  | cons a rest ih =>
    intro sensors h
    unfold buildSensors at h
    by_cases hmem : a.name ∈ config.exclude_wallet
    · rw [if_pos hmem] at h
      simp [List.filter_cons, hmem, ih sensors h]
    · rw [if_neg hmem] at h
      cases hc : CoinbaseSensor.construct env config ("Coinbase " ++ a.name)
          a.id config.native_balance with
      | error e =>
        rw [hc] at h
        exact absurd h (by simp [bind, Except.bind])
      | ok s =>
        rw [hc] at h
        cases hr : buildSensors env config rest with
        | error e =>
          rw [hr] at h
          exact absurd h (by simp [bind, Except.bind])
        | ok rest2 =>
          rw [hr] at h
          simp only [bind, Except.bind, pure, Except.pure,
            Except.ok.injEq] at h
          rw [← h]
          obtain ⟨hn, hid⟩ := construct_name_id env config
            ("Coinbase " ++ a.name) a.id config.native_balance s hc
          simp [List.filter_cons, hmem, hn, hid, ih rest2 hr]

/-- Claim C7: given the bootstrap account listing and the exclusion list,
setup registers exactly one sensor per non-excluded account (in listing
order, named `Coinbase <name>` and bound to that account id) and none for
excluded names. -/
theorem C7_exclusion_filtered_registration (env : Env) (config : Config)
    (accounts : List AccountSummary) (sensors : List CoinbaseSensor)
    (hacc : env.get_accounts config.api_key config.api_secret = .ok accounts)
    (hb : buildSensors env config accounts = .ok sensors) :
    setup_platform env config = .ok (some sensors) ∧
    sensors.map (fun s => (s._name, s.account_id)) =
      (accounts.filter
        (fun a => decide ¬(a.name ∈ config.exclude_wallet))).map
        (fun a => ("Coinbase " ++ a.name, a.id)) := by
  constructor
  · simp only [setup_platform, hacc, hb, bind, Except.bind]
    rfl
  · exact buildSensors_names env config accounts sensors hb

/-- Witness for C7: exclusion list `[Vault]`, accounts `[Vault, Checking]`;
exactly one sensor, for `Checking`, is registered. -/
theorem C7_exclusion_filtered_registration_witness :
    env7.get_accounts cfgEx.api_key cfgEx.api_secret = .ok accts7 ∧
    buildSensors env7 cfgEx accts7 = .ok (buildResult env7 cfgEx accts7) ∧
    (setup_platform env7 cfgEx = .ok (some (buildResult env7 cfgEx accts7)) ∧
      (buildResult env7 cfgEx accts7).map
        (fun s => (s._name, s.account_id)) =
        [("Coinbase Checking", "a2")]) :=
  ⟨rfl, rfl,
    (C7_exclusion_filtered_registration env7 cfgEx accts7
      (buildResult env7 cfgEx accts7) rfl rfl).1,
    ((C7_exclusion_filtered_registration env7 cfgEx accts7
      (buildResult env7 cfgEx accts7) rfl rfl).2).trans (by decide)⟩

/-- A throttled call to `update` returns the client unchanged. -/
lemma update_throttled (env : Env) (c : CoinbaseClient)
    (hth : throttledB env c = true) : c.update env = .ok (c, []) := by
  unfold CoinbaseClient.update
  unfold throttledB at hth
  cases hl : c.last_refresh with
  | none =>
    rw [hl] at hth
    simp at hth
  | some t =>
    rw [hl] at hth
    simp only [decide_eq_true_eq] at hth
    simp [hth]

/-- Exhaustive shapes of a successful body run: auth failure (state kept),
non-wallet refresh (account fields plus the exchange rate overwritten), or
wallet refresh (all pricing fields overwritten as well). -/
lemma update_body_ok_cases (env : Env) (c c3 : CoinbaseClient)
    (calls : List RemoteCall)
    (hbody : c.update_body env = .ok (c3, calls)) :
    (c3 = c ∧ ∃ e, env.get_account c.haconf.api_key c.haconf.api_secret
      c.account_id = .error e) ∨
    ∃ a r, env.get_account c.haconf.api_key c.haconf.api_secret
        c.account_id = .ok a ∧
      ((a.type ≠ "wallet" ∧
        c3 = { c.applyAccount a with exch_rate_native_usd := some r }) ∨
       (a.type = "wallet" ∧ ∃ b sv sp,
        c3 = { c.applyAccount a with
                exch_rate_native_usd := some r
                buy_price := some b
                sell_price := some sv
                spot_price := some sp })) := by
  unfold CoinbaseClient.update_body at hbody
  cases ha : env.get_account c.haconf.api_key c.haconf.api_secret
      c.account_id with
  | error e =>
    rw [ha] at hbody
    simp only [pure, Except.pure, Except.ok.injEq, Prod.mk.injEq] at hbody
    exact Or.inl ⟨hbody.1.symm, e, rfl⟩
  | ok a =>
    rw [ha] at hbody
    simp only [CoinbaseClient.applyAccount, bind, Except.bind] at hbody
    right
    cases hr : coinbasehttp .exchange_rate none a.native_balance.currency
        (env.http .exchange_rate none a.native_balance.currency) with
    | error e =>
      simp only [hr] at hbody
      exact absurd hbody (by simp)
    | ok r =>
      simp only [hr] at hbody
      refine ⟨a, r, rfl, ?_⟩
      by_cases hw : a.type = "wallet"
      · right
        refine ⟨hw, ?_⟩
        rw [if_pos (show some a.type = some "wallet" by rw [hw])] at hbody
        cases hb : coinbasehttp .buy_price (some a.balance.currency)
            a.native_balance.currency
            (env.http .buy_price (some a.balance.currency)
              a.native_balance.currency) with
        | error e =>
          simp only [hb] at hbody
          exact absurd hbody (by simp)
        | ok b =>
          simp only [hb] at hbody
          cases hs : coinbasehttp .sell_price (some a.balance.currency)
              a.native_balance.currency
              (env.http .sell_price (some a.balance.currency)
                a.native_balance.currency) with
          | error e =>
            simp only [hs] at hbody
            exact absurd hbody (by simp)
          | ok sv =>
            simp only [hs] at hbody
            cases hp : coinbasehttp .spot_price (some a.balance.currency)
                a.native_balance.currency
                (env.http .spot_price (some a.balance.currency)
                  a.native_balance.currency) with
            | error e =>
              simp only [hp] at hbody
              exact absurd hbody (by simp)
            | ok sp =>
              simp only [hp, pure, Except.pure, Except.ok.injEq,
                Prod.mk.injEq] at hbody
              exact ⟨b, sv, sp, hbody.1.symm⟩
      · left
        refine ⟨hw, ?_⟩
        rw [if_neg (by simp [hw])] at hbody
        simp only [pure, Except.pure, Except.ok.injEq, Prod.mk.injEq] at hbody
        exact hbody.1.symm

/-- One refresh step preserves the snapshot invariant, provided every
account the environment can return for this poller has the kind `t0` the
snapshot was built from. -/
lemma snapshotInv_step (env : Env) (c c2 : CoinbaseClient)
    (calls : List RemoteCall) (t0 : String)
    (hkind : ∀ a, env.get_account c.haconf.api_key c.haconf.api_secret
      c.account_id = .ok a → a.type = t0)
    (hcur : c.account_type = none ∨ c.account_type = some t0)
    (hinv : SnapshotInv c)
    (hup : c.update env = .ok (c2, calls)) :
    SnapshotInv c2 ∧
    (c2.account_type = none ∨ c2.account_type = some t0) ∧
    c2.haconf = c.haconf ∧ c2.account_id = c.account_id := by
  cases hth : throttledB env c with
  | true =>
    rw [update_throttled env c hth] at hup
    simp only [Except.ok.injEq, Prod.mk.injEq] at hup
    rw [← hup.1]
    exact ⟨hinv, hcur, rfl, rfl⟩
  | false =>
    obtain ⟨c3, hbody, hc2⟩ := update_ok_body env c c2 calls hth hup
    subst hc2
    rcases update_body_ok_cases env c c3 calls hbody with ⟨hsame, _e0, _he0⟩ |
      ⟨a, r, ha, hcase⟩
    · subst hsame
      refine ⟨?_, hcur, rfl, rfl⟩
      rcases hinv with he | ⟨t, hp⟩
      · exact Or.inl ⟨he.account_type, he.created_at, he.updated_at,
          he.primary, he.resource, he.balance_amount, he.balance_currency,
          he.native_balance_amount, he.native_balance_currency,
          he.buy_price, he.sell_price, he.spot_price,
          he.exch_rate_native_usd⟩
      · exact Or.inr ⟨t, hp.account_type, hp.created_at, hp.updated_at,
          hp.primary, hp.resource, hp.balance_amount, hp.balance_currency,
          hp.native_balance_amount, hp.native_balance_currency,
          hp.exch_rate_native_usd, hp.wallet_prices, hp.fiat_prices⟩
    · have htype := hkind a ha
      rcases hcase with ⟨hnw, hrec⟩ | ⟨hw, b, sv, sp, hrec⟩
      · subst hrec
        have hnone : c.buy_price = none ∧ c.sell_price = none ∧
            c.spot_price = none := by
          rcases hinv with he | ⟨t, hp⟩
          · exact ⟨he.buy_price, he.sell_price, he.spot_price⟩
          · rcases hcur with hc0 | hc0
            · rw [hp.account_type] at hc0
              exact absurd hc0 (by simp)
            · rw [hp.account_type] at hc0
              have ht : t = t0 := by
                simpa using hc0
              refine hp.fiat_prices ?_
              rw [ht, ← htype]
              exact hnw
        refine ⟨Or.inr ⟨t0, ?_, rfl, rfl, rfl, rfl, rfl, rfl, rfl, rfl, rfl,
            fun h => absurd (htype.trans h) hnw,
            fun _ => ⟨hnone.1, hnone.2.1, hnone.2.2⟩⟩,
          Or.inr ?_, rfl, rfl⟩
        · show some a.type = some t0
          rw [htype]
        · show some a.type = some t0
          rw [htype]
      · subst hrec
        refine ⟨Or.inr ⟨t0, ?_, rfl, rfl, rfl, rfl, rfl, rfl, rfl, rfl, rfl,
            fun _ => ⟨rfl, rfl, rfl⟩,
            fun h => absurd (htype.symm.trans hw) h⟩,
          Or.inr ?_, rfl, rfl⟩
        · show some a.type = some t0
          rw [htype]
        · show some a.type = some t0
          rw [htype]

/-- The exception-oblivious body is the projection of the mutation-faithful
body: identical success value and identical raised exception. -/
lemma update_body_agrees (env : Env) (c : CoinbaseClient) :
    c.update_body env =
      match (c.update_body_run env).exn with
      | none => .ok ((c.update_body_run env).state,
          (c.update_body_run env).calls)
      | some e => .error e := by
  unfold CoinbaseClient.update_body CoinbaseClient.update_body_run
  cases ha : env.get_account c.haconf.api_key c.haconf.api_secret
      c.account_id with
  | error e => simp [ha, pure, Except.pure]
  | ok a =>
    simp only [ha, CoinbaseClient.applyAccount, bind, Except.bind]
    cases hr : coinbasehttp .exchange_rate none a.native_balance.currency
        (env.http .exchange_rate none a.native_balance.currency) with
    | error e => simp [hr]
    | ok r =>
      simp only [hr]
      by_cases hw : (some a.type : Option String) = some "wallet"
      · simp only [if_pos hw]
        cases hb : coinbasehttp .buy_price (some a.balance.currency)
            a.native_balance.currency
            (env.http .buy_price (some a.balance.currency)
              a.native_balance.currency) with
        | error e => simp [hb]
        | ok b =>
          simp only [hb]
          cases hs : coinbasehttp .sell_price (some a.balance.currency)
              a.native_balance.currency
              (env.http .sell_price (some a.balance.currency)
                a.native_balance.currency) with
          | error e => simp [hs]
          | ok sv =>
            simp only [hs]
            cases hp : coinbasehttp .spot_price (some a.balance.currency)
                a.native_balance.currency
                (env.http .spot_price (some a.balance.currency)
                  a.native_balance.currency) with
            | error e => simp [hp]
            | ok sp => simp [hp, pure, Except.pure]
      · simp only [if_neg hw]
        rfl

/-- The exception-oblivious `update` is the projection of the
mutation-faithful `update_run`. -/
lemma update_run_agrees (env : Env) (c : CoinbaseClient) :
    c.update env =
      match (c.update_run env).exn with
      | none => .ok ((c.update_run env).state, (c.update_run env).calls)
      | some e => .error e := by
  unfold CoinbaseClient.update CoinbaseClient.update_run
  rw [update_body_agrees env c]
  cases hl : c.last_refresh with
  | none =>
    cases hbe : (c.update_body_run env).exn with
    | none => simp [stampIfOk, hbe, bind, Except.bind, pure, Except.pure]
    | some e => simp [stampIfOk, hbe, bind, Except.bind, pure, Except.pure]
  | some t =>
    by_cases hcond : env.now < t + 60
    · simp [hcond, pure, Except.pure]
    · cases hbe : (c.update_body_run env).exn with
      | none =>
        simp [stampIfOk, hbe, hcond, bind, Except.bind, pure, Except.pure]
      | some e =>
        simp [stampIfOk, hbe, hcond, bind, Except.bind, pure, Except.pure]

/-- On a completed (exception-free) body run that fetched account `a`, the
resulting snapshot is literally the record rebuilt from the response:
account and timestamp fields, the exchange rate, and for a wallet account
all three prices; for a non-wallet account buy/sell/spot alone are carried
over unchanged. -/
lemma update_body_ok_of_account (env : Env) (c c3 : CoinbaseClient)
    (calls : List RemoteCall) (a : Account)
    (hacct : env.get_account c.haconf.api_key c.haconf.api_secret
      c.account_id = .ok a)
    (hbody : c.update_body env = .ok (c3, calls)) :
    ∃ r, (a.type = "wallet" ∧ ∃ b sv sp,
            c3 = { c.applyAccount a with
                    exch_rate_native_usd := some r
                    buy_price := some b
                    sell_price := some sv
                    spot_price := some sp }) ∨
         (a.type ≠ "wallet" ∧
            c3 = { c.applyAccount a with
                    exch_rate_native_usd := some r }) := by
  rcases update_body_ok_cases env c c3 calls hbody with ⟨_, e0, he0⟩ |
    ⟨a2, r, ha2, hcase⟩
  · rw [hacct] at he0
    exact absurd he0 (by simp)
  · have ha3 := hacct.symm.trans ha2
    injection ha3 with ha4
    subst ha4
    rcases hcase with ⟨hnw, hrec⟩ | ⟨hw, b, sv, sp, hrec⟩
    · exact ⟨r, Or.inr ⟨hnw, hrec⟩⟩
    · exact ⟨r, Or.inl ⟨hw, b, sv, sp, hrec⟩⟩

/-- One exception-free tick of the mutation-faithful `update_run` preserves
the snapshot invariant, via agreement with the exception-oblivious view. -/
lemma snapshotInv_step_run (env : Env) (c : CoinbaseClient) (t0 : String)
    (hkind : ∀ a, env.get_account c.haconf.api_key c.haconf.api_secret
      c.account_id = .ok a → a.type = t0)
    (hcur : c.account_type = none ∨ c.account_type = some t0)
    (hinv : SnapshotInv c)
    (hexn : (c.update_run env).exn = none) :
    SnapshotInv (c.update_run env).state ∧
    ((c.update_run env).state.account_type = none ∨
      (c.update_run env).state.account_type = some t0) ∧
    (c.update_run env).state.haconf = c.haconf ∧
    (c.update_run env).state.account_id = c.account_id := by
  have hup : c.update env =
      .ok ((c.update_run env).state, (c.update_run env).calls) := by
    rw [update_run_agrees env c, hexn]
  exact snapshotInv_step env c _ _ t0 hkind hcur hinv hup

/-- The snapshot invariant holds after any exception-free run of ticks from
a freshly constructed poller, under kind-consistent environments. -/
lemma snapshotInv_ticks (cfg : Config) (id t0 : String) :
    ∀ (envs : List Env) (c : CoinbaseClient),
      c.haconf = cfg → c.account_id = id →
      SnapshotInv c →
      (c.account_type = none ∨ c.account_type = some t0) →
      (∀ e ∈ envs, ∀ a,
        e.get_account cfg.api_key cfg.api_secret id = .ok a →
        a.type = t0) →
      (runTicks envs c).2 = [] → SnapshotInv (runTicks envs c).1 := by
  intro envs
  induction envs with
  | nil =>
    intro c _ _ hinv _ _ _
    exact hinv
  | cons e rest ih =>
    intro c hcfg hid hinv hcur hk hx
    simp only [runTicks] at hx ⊢
    have hx2 := List.append_eq_nil.mp hx
    have hexn : (c.update_run e).exn = none := by
      cases ho : (c.update_run e).exn with
      | none => rfl
      | some ex =>
        rw [ho] at hx2
        simp [Option.toList] at hx2
    have hkind : ∀ a, e.get_account c.haconf.api_key c.haconf.api_secret
        c.account_id = .ok a → a.type = t0 := by
      intro a ha
      rw [hcfg, hid] at ha
      exact hk e (List.mem_cons_self e rest) a ha
    have hstep := snapshotInv_step_run e c t0 hkind hcur hinv hexn
    exact ih (c.update_run e).state (hstep.2.2.1.trans hcfg)
      (hstep.2.2.2.trans hid) hstep.1 hstep.2.1
      (fun e2 he2 => hk e2 (List.mem_cons_of_mem e he2)) hx2.2

/-- Counterexample to claim C4 as stated, in three parts, one per forced
amendment.  (i) A successful refresh of the fiat account populates the
pricing field `exch_rate_native_usd` — pricing fields do not all stay unset
for fiat accounts.  (ii) A 2xx exchange-rates body lacking the `rates` key
raises `KeyError` after lines 208-216 already overwrote the account fields:
the resulting reachable snapshot is neither fully empty nor fully populated
(its invariant `SnapshotInv` is refuted), which forces the amended claim to
assume exception-free refreshes.  (iii) A wallet refresh followed by a fiat
refresh (both fully successful, no exceptions) leaves stale buy/sell/spot
on a fiat-kind snapshot, which forces the amended claim to assume one fixed
account kind across the sequence. -/
theorem C4_counterexample :
    (((CoinbaseClient.init cfg0 "f1").update_run envF).exn = none ∧
     ((CoinbaseClient.init cfg0 "f1").update_run envF).state.account_type =
       some "fiat" ∧
     ((CoinbaseClient.init cfg0 "f1").update_run envF
       ).state.exch_rate_native_usd = some "1.0") ∧
    (((CoinbaseClient.init cfg0 "f1").update_run envBadRates).exn =
       some "KeyError: rates" ∧
     ((CoinbaseClient.init cfg0 "f1").update_run envBadRates
       ).state.account_type = some "fiat" ∧
     ((CoinbaseClient.init cfg0 "f1").update_run envBadRates
       ).state.balance_amount = some "10" ∧
     ((CoinbaseClient.init cfg0 "f1").update_run envBadRates
       ).state.exch_rate_native_usd = none ∧
     ¬ SnapshotInv ((CoinbaseClient.init cfg0 "f1").update_run envBadRates
       ).state) ∧
    ((runTicks [envW, envF2] (CoinbaseClient.init cfg0 "w1")).2 = [] ∧
     (runTicks [envW, envF2] (CoinbaseClient.init cfg0 "w1")
       ).1.account_type = some "fiat" ∧
     (runTicks [envW, envF2] (CoinbaseClient.init cfg0 "w1")).1.buy_price =
       some "6100") := by
  refine ⟨⟨rfl, rfl, rfl⟩, ⟨rfl, rfl, rfl, rfl, ?_⟩, rfl, rfl, rfl⟩
  intro hinv
  rcases hinv with he | ⟨t, hp⟩
  · exact absurd he.account_type (by decide)
  · exact absurd hp.exch_rate_native_usd (by decide)

/-- Claim C4 (amended): after any sequence of host ticks of a fresh poller
in which no refresh raised an uncaught pricing exception (forced by
counterexample part ii) and every fetched account reported one fixed kind
`t0` (forced by part iii), the snapshot is either fully empty or fully
populated for that kind — with the exchange-rate field populated for every
kind (forced by part i) and buy/sell/spot unset exactly for non-wallet
kinds; moreover every refresh that fetched an account and completed rebuilt
the snapshot wholesale from that response: account and timestamp fields,
the exchange rate, and for a wallet account all three prices, with only
buy/sell/spot carried over for non-wallet kinds. -/
theorem C4_snapshot_kind_invariant (cfg : Config) (id t0 : String)
    (envs : List Env) (c2 : CoinbaseClient) (exns : List String)
    (hkind : ∀ e ∈ envs, ∀ a,
      e.get_account cfg.api_key cfg.api_secret id = .ok a → a.type = t0)
    (hrun : runTicks envs (CoinbaseClient.init cfg id) = (c2, exns))
    (hnoexn : exns = []) :
    SnapshotInv c2 ∧
    (∀ (env : Env) (c : CoinbaseClient) (a : Account),
      env.get_account c.haconf.api_key c.haconf.api_secret c.account_id =
        .ok a →
      (c.update_body_run env).exn = none →
      ∃ r, (a.type = "wallet" ∧ ∃ b sv sp,
              (c.update_body_run env).state =
                { c.applyAccount a with
                    exch_rate_native_usd := some r
                    buy_price := some b
                    sell_price := some sv
                    spot_price := some sp }) ∨
           (a.type ≠ "wallet" ∧
              (c.update_body_run env).state =
                { c.applyAccount a with
                    exch_rate_native_usd := some r })) := by
  constructor
  · have h1 : (runTicks envs (CoinbaseClient.init cfg id)).2 = [] := by
      rw [hrun]
      exact hnoexn
    have h2 := snapshotInv_ticks cfg id t0 envs
      (CoinbaseClient.init cfg id) rfl rfl
      (Or.inl ⟨rfl, rfl, rfl, rfl, rfl, rfl, rfl, rfl, rfl, rfl, rfl, rfl,
        rfl⟩)
      (Or.inl rfl) hkind h1
    rw [hrun] at h2
    exact h2
  · intro env c a hacct hexn
    have hbody : c.update_body env =
        .ok ((c.update_body_run env).state, (c.update_body_run env).calls) := by
      rw [update_body_agrees env c, hexn]
    exact update_body_ok_of_account env c _ _ a hacct hbody

/-- Witness for the amended C4: two exception-free fiat ticks (the second
past the throttle window). -/
theorem C4_snapshot_kind_invariant_witness :
    (∀ e ∈ [envF, envF2], ∀ a,
      e.get_account cfg0.api_key cfg0.api_secret "f1" = .ok a →
      a.type = "fiat") ∧
    runTicks [envF, envF2] (CoinbaseClient.init cfg0 "f1") =
      ((runTicks [envF, envF2] (CoinbaseClient.init cfg0 "f1")).1,
        ([] : List String)) ∧
    ([] : List String) = [] ∧
    (SnapshotInv (runTicks [envF, envF2] (CoinbaseClient.init cfg0 "f1")).1 ∧
     (∀ (env : Env) (c : CoinbaseClient) (a : Account),
      env.get_account c.haconf.api_key c.haconf.api_secret c.account_id =
        .ok a →
      (c.update_body_run env).exn = none →
      ∃ r, (a.type = "wallet" ∧ ∃ b sv sp,
              (c.update_body_run env).state =
                { c.applyAccount a with
                    exch_rate_native_usd := some r
                    buy_price := some b
                    sell_price := some sv
                    spot_price := some sp }) ∨
           (a.type ≠ "wallet" ∧
              (c.update_body_run env).state =
                { c.applyAccount a with
                    exch_rate_native_usd := some r }))) := by
  have hk : ∀ e ∈ [envF, envF2], ∀ a,
      e.get_account cfg0.api_key cfg0.api_secret "f1" = .ok a →
      a.type = "fiat" := by
    intro e he a ha
    simp only [List.mem_cons, List.not_mem_nil, or_false] at he
    have ha2 : acctF = a := by
      rcases he with h | h
      · subst h
        simpa [envF, envW] using ha
      · subst h
        simpa [envF2, envF, envW] using ha
    rw [← ha2]
    rfl
  exact ⟨hk, rfl, rfl,
    C4_snapshot_kind_invariant cfg0 "f1" "fiat" [envF, envF2]
      (runTicks [envF, envF2] (CoinbaseClient.init cfg0 "f1")).1 [] hk rfl
      rfl⟩

end Coinbase
